import Mathlib

/-!
Verification of the MultiOS POSIX compatibility layer's thread
synchronization subsystem, as declared in
`src/multios/userland/posix/include/pthread.h`.

The repository ships only the header: structure layouts, constants and
function prototypes.  Constants and initializer macros are embedded
directly from the header.  The behaviour of the declared operations
(lock/unlock, once, rwlock, barrier, timed waits) is not present in the
repository sources, so it is modelled from the specification, one
definition per primitive, each marked `Modelled from the spec:`.
-/

namespace MultiOS

/-! ## Constants from pthread.h -/

/-- Mutex type `PTHREAD_MUTEX_NORMAL` (pthread.h line 52). -/
def PTHREAD_MUTEX_NORMAL : Nat := 0

/-- Mutex type `PTHREAD_MUTEX_RECURSIVE` (pthread.h line 53). -/
def PTHREAD_MUTEX_RECURSIVE : Nat := 1

/-- Mutex type `PTHREAD_MUTEX_ERRORCHECK` (pthread.h line 54). -/
def PTHREAD_MUTEX_ERRORCHECK : Nat := 2

/-- Mutex type `PTHREAD_MUTEX_DEFAULT` (pthread.h line 55). -/
def PTHREAD_MUTEX_DEFAULT : Nat := PTHREAD_MUTEX_NORMAL

/-- Mutex protocol `PTHREAD_PRIO_NONE` (pthread.h line 58). -/
def PTHREAD_PRIO_NONE : Nat := 0

/-- Mutex protocol `PTHREAD_PRIO_INHERIT` (pthread.h line 59). -/
def PTHREAD_PRIO_INHERIT : Nat := 1

/-- Mutex protocol `PTHREAD_PRIO_PROTECT` (pthread.h line 60). -/
def PTHREAD_PRIO_PROTECT : Nat := 2

/-- Robustness attribute `PTHREAD_MUTEX_STALLED` (pthread.h line 63). -/
def PTHREAD_MUTEX_STALLED : Nat := 0

/-- Robustness attribute `PTHREAD_MUTEX_ROBUST` (pthread.h line 64). -/
def PTHREAD_MUTEX_ROBUST : Nat := 1

/-- Sharing scope `PTHREAD_PROCESS_PRIVATE` (pthread.h line 76). -/
def PTHREAD_PROCESS_PRIVATE : Nat := 0

/-- Sharing scope `PTHREAD_PROCESS_SHARED` (pthread.h line 77). -/
def PTHREAD_PROCESS_SHARED : Nat := 1

/-- Return code `PTHREAD_SUCCESS` (pthread.h line 91). -/
def PTHREAD_SUCCESS : Nat := 0

/-- Return code base `PTHREAD_ERROR_BASE` (pthread.h line 92). -/
def PTHREAD_ERROR_BASE : Nat := 0

/-- Return code `PTHREAD_BUSY` (pthread.h line 93). -/
def PTHREAD_BUSY : Nat := PTHREAD_ERROR_BASE + 1

/-- Return code `PTHREAD_INVAL` (pthread.h line 94). -/
def PTHREAD_INVAL : Nat := PTHREAD_ERROR_BASE + 2

/-- Return code `PTHREAD_AGAIN` (pthread.h line 95). -/
def PTHREAD_AGAIN : Nat := PTHREAD_ERROR_BASE + 3

/-- Return code `PTHREAD_NOMEM` (pthread.h line 96). -/
def PTHREAD_NOMEM : Nat := PTHREAD_ERROR_BASE + 4

/-- Return code `PTHREAD_ACCES` (pthread.h line 97). -/
def PTHREAD_ACCES : Nat := PTHREAD_ERROR_BASE + 5

/-- Return code `PTHREAD_FAULT` (pthread.h line 98). -/
def PTHREAD_FAULT : Nat := PTHREAD_ERROR_BASE + 6

/-! ## Structure layouts from pthread.h

Machine integers become `Nat` (all header values in play are small and
non-negative, no overflow is reachable); pointers become `Option Nat`
(`none` is the null pointer, `some a` an address).  `pthread_t` is an
`unsigned long` thread identifier, embedded as `Nat`. -/

/-- `pthread_mutex_t` (pthread.h lines 107-114): fields `__type`,
`__protocol`, `__robust`, `__pshared`, `__owner` (a `void *`, null when
unowned), `__lock`. -/
structure pthread_mutex_t where
  __type : Nat
  __protocol : Nat
  __robust : Nat
  __pshared : Nat
  __owner : Option Nat
  __lock : Nat
  deriving DecidableEq, Repr

/-- `pthread_once_t` (pthread.h lines 101-104): fields `__done` and
`__func` (a function pointer, null when absent). -/
structure pthread_once_t where
  __done : Nat
  __func : Option Nat
  deriving DecidableEq, Repr

/-- `PTHREAD_MUTEX_INITIALIZER` (pthread.h line 87), the macro
`{ { 0, 0, 0 } }`: every field of the aggregate is zero-initialized
(members without an explicit initializer are set to zero / null by C
aggregate-initialization). -/
def PTHREAD_MUTEX_INITIALIZER : pthread_mutex_t :=
  { __type := 0, __protocol := 0, __robust := 0, __pshared := 0,
    __owner := none, __lock := 0 }

/-- `PTHREAD_ONCE_INIT` (pthread.h line 84), the macro `{ 0 }`:
`__done` is 0 and `__func` is zero-initialized to the null pointer. -/
def PTHREAD_ONCE_INIT : pthread_once_t :=
  { __done := 0, __func := none }

/-! ## Mutex behaviour, modelled from the spec

Threads are `Nat` identifiers (`pthread_t` is an unsigned long).  Each
operation is embedded as an atomic completion step on the mutex state;
an operation that must keep blocking is a step that does not complete
(`none`). -/

/-- Mutex behavioural kinds from spec §3/§4.1: Normal, Recursive,
ErrorCheck (the robust attribute is tracked separately, as in the
header's `__robust` field). -/
inductive MutexKind
  | normal
  | recursive
  | errorcheck
  deriving DecidableEq, Repr

/-- Operation results, following the spec's §7 error taxonomy: success,
Busy (try-variant contention), Timeout (deadline elapsed), Misuse
(unlock-not-owner / double-lock in checking modes), OwnerDied (robust
mutex only), and the permanent failure after an inconsistent robust
mutex is released unrepaired. -/
inductive LockResult
  | success
  | busy
  | timeout
  | misuse
  | ownerDied
  | notRecoverable
  deriving DecidableEq, Repr

/-- Modelled from the spec: the mutex state of §3, `{state: Unlocked |
LockedBy(owner_id, recursion_count), kind, robust, ...}` together with
the robust-mutex bookkeeping of §4.1 (`owner died without unlocking`,
`must call MakeConsistent`, `fail permanently`).  The implementation of
`pthread_mutex_t` operations is not in the repository (pthread.h only
declares them). `owner = none` is Unlocked. -/
structure MutexModel where
  kind : MutexKind
  robust : Bool
  owner : Option Nat
  recursion : Nat
  ownerDead : Bool
  needConsistent : Bool
  recoverable : Bool
  deriving DecidableEq, Repr

/-- Modelled from the spec: completion of `pthread_mutex_lock` by
thread `t` (§4.1).  `none` means the call cannot complete yet and the
caller stays blocked.  An unlocked mutex is acquired with result
`success`, or `ownerDied` when the robust previous owner terminated
while holding it; a recursive re-entrant lock increments
`recursion_count`; an errorcheck double-lock is a reported misuse; a
normal double-lock or a lock of a mutex held by another thread blocks;
after an inconsistent robust mutex was released without repair, every
lock fails permanently. -/
def pthread_mutex_lock (m : MutexModel) (t : Nat) :
    Option (LockResult × MutexModel) :=
  if m.recoverable = false then some (.notRecoverable, m)
  else
    match m.owner with
    | none =>
        if m.ownerDead then
          some (.ownerDied,
            { m with owner := some t, recursion := 1,
                     ownerDead := false, needConsistent := true })
        else
          some (.success, { m with owner := some t, recursion := 1 })
    | some u =>
        if u = t then
          match m.kind with
          | .recursive => some (.success, { m with recursion := m.recursion + 1 })
          | .errorcheck => some (.misuse, m)
          | .normal => none
        else none

/-- Modelled from the spec: `pthread_mutex_trylock` (§4.1) — a single
attempt; contention is reported as the ordinary result `busy` instead
of blocking. -/
def pthread_mutex_trylock (m : MutexModel) (t : Nat) :
    LockResult × MutexModel :=
  match pthread_mutex_lock m t with
  | some r => r
  | none => (.busy, m)

/-- Modelled from the spec: `pthread_mutex_timedlock` (§4.1, §5) —
blocks until acquired or the absolute deadline elapses; when the
deadline has elapsed and the lock still cannot be acquired the call
completes with the ordinary result `timeout`. -/
def pthread_mutex_timedlock (m : MutexModel) (t now deadline : Nat) :
    Option (LockResult × MutexModel) :=
  match pthread_mutex_lock m t with
  | some r => some r
  | none => if deadline ≤ now then some (.timeout, m) else none

/-- Modelled from the spec: `pthread_mutex_unlock` (§4.1).  The owner's
unlock decrements the recursion count, releasing only at count 0;
releasing an inconsistent robust mutex without having called
`pthread_mutex_consistent` makes the mutex permanently unusable;
unlocking a mutex not held by the caller is reported misuse and leaves
the state unchanged. -/
def pthread_mutex_unlock (m : MutexModel) (t : Nat) :
    LockResult × MutexModel :=
  match m.owner with
  | some u =>
      if u = t then
        if m.recursion ≤ 1 then
          if m.needConsistent then
            (.success, { m with owner := none, recursion := 0,
                                needConsistent := false, recoverable := false })
          else
            (.success, { m with owner := none, recursion := 0 })
        else (.success, { m with recursion := m.recursion - 1 })
      else (.misuse, m)
  | none => (.misuse, m)

/-- Modelled from the spec: `pthread_mutex_consistent` (pthread.h line
316, spec §4.1 MakeConsistent) — the thread that acquired an
inconsistent robust mutex repairs it; calling it in any other situation
is reported misuse. -/
def pthread_mutex_consistent (m : MutexModel) (t : Nat) :
    LockResult × MutexModel :=
  if m.owner = some t ∧ m.needConsistent = true then
    (.success, { m with needConsistent := false })
  else (.misuse, m)

/-- Modelled from the spec: the external thread-identity collaborator
reports that thread `t` terminated.  If `t` holds a robust mutex the
mutex records `owner died without unlocking` and becomes acquirable;
a non-robust mutex simply stays held forever (stalled). -/
def ownerTerminates (m : MutexModel) (t : Nat) : MutexModel :=
  if m.owner = some t ∧ m.robust = true then
    { m with owner := none, recursion := 0, ownerDead := true }
  else m

/-- Thread `t` currently holds the mutex. -/
def heldBy (m : MutexModel) (t : Nat) : Prop := m.owner = some t

instance (m : MutexModel) (t : Nat) : Decidable (heldBy m t) := by
  unfold heldBy; infer_instance

/-- Events on one mutex: each is the atomic completion of one
operation (or the owner-termination notification). -/
inductive MutexEvent
  | lockDone (t : Nat)
  | trylockDone (t : Nat)
  | timedlockDone (t now deadline : Nat)
  | unlockDone (t : Nat)
  | consistentDone (t : Nat)
  | ownerTerm (t : Nat)
  deriving DecidableEq, Repr

/-- State after one mutex event; `none` when the event cannot complete
in this state. -/
def mutexStep (m : MutexModel) : MutexEvent → Option MutexModel
  | .lockDone t => (pthread_mutex_lock m t).map (fun r => r.2)
  | .trylockDone t => some (pthread_mutex_trylock m t).2
  | .timedlockDone t now deadline =>
      (pthread_mutex_timedlock m t now deadline).map (fun r => r.2)
  | .unlockDone t => some (pthread_mutex_unlock m t).2
  | .consistentDone t => some (pthread_mutex_consistent m t).2
  | .ownerTerm t => some (ownerTerminates m t)

/-- Run a sequence of completed mutex events. -/
def mutexRun (m : MutexModel) : List MutexEvent → Option MutexModel
  | [] => some m
  | e :: es =>
      match mutexStep m e with
      | some m2 => mutexRun m2 es
      | none => none

/-! ## Condition variable timed wait, modelled from the spec -/

/-- Outcome of a condition-variable timed wait (§4.2): woken by a
signal/broadcast, deadline elapsed, or a spurious wakeup with no
corresponding signal. -/
inductive WaitOutcome
  | signaled
  | timeout
  | spurious
  deriving DecidableEq, Repr

/-- Modelled from the spec: the condition-variable state of §3,
`{generation: monotonic counter, waiter_count}`; the implementation of
`pthread_cond_t` operations is not in the repository. -/
structure CondModel where
  generation : Nat
  waiter_count : Nat
  deriving DecidableEq, Repr

/-- Modelled from the spec: completion of `pthread_cond_timedwait`
(§4.2) for a waiter that sampled generation `gen0` before releasing the
mutex.  A generation change means a signal/broadcast was observed; an
elapsed absolute deadline completes with `timeout`; `spur` models the
wait primitive spuriously waking; otherwise the waiter keeps
blocking. -/
def pthread_cond_timedwait (c : CondModel) (gen0 now deadline : Nat)
    (spur : Bool) : Option (WaitOutcome × CondModel) :=
  if gen0 < c.generation then some (.signaled, c)
  else if deadline ≤ now then some (.timeout, c)
  else if spur then some (.spurious, c)
  else none

/-! ## Once-control, modelled from the spec -/

/-- Once-control states from spec §3: NotStarted, InProgress (with the
running thread), Done. -/
inductive OnceState
  | notStarted
  | inProgress (runner : Nat)
  | done
  deriving DecidableEq, Repr

/-- Events on one once-control.  `enter t f` is the transition
NotStarted→InProgress in which thread `t` starts running initializer
body `f`; `complete t` is the runner finishing, InProgress→Done;
`passDone t` is a caller returning from `pthread_once` without running
its routine (possible only at Done). -/
inductive OnceEvent
  | enter (t : Nat) (f : Nat)
  | complete (t : Nat)
  | passDone (t : Nat)
  deriving DecidableEq, Repr

/-- Modelled from the spec: one atomic step of `pthread_once` (§4.6).
The first caller transitions NotStarted→InProgress and runs the
initializer; callers arriving during InProgress block (no completion);
once Done, callers return without running their routine. -/
def onceStep (s : OnceState) : OnceEvent → Option OnceState
  | .enter t _ =>
      match s with
      | .notStarted => some (.inProgress t)
      | _ => none
  | .complete t =>
      match s with
      | .inProgress u => if u = t then some .done else none
      | _ => none
  | .passDone _ =>
      match s with
      | .done => some .done
      | _ => none

/-- Run a sequence of completed once-control events. -/
def onceRun (s : OnceState) : List OnceEvent → Option OnceState
  | [] => some s
  | e :: es =>
      match onceStep s e with
      | some s2 => onceRun s2 es
      | none => none

/-- The event in which an initializer body actually executes. -/
def runsInit : OnceEvent → Bool
  | .enter _ _ => true
  | _ => false

/-- Number of initializer-body executions in a trace. -/
def initRunCount (tr : List OnceEvent) : Nat :=
  (tr.filter runsInit).length

/-- Abstraction of the header's `pthread_once_t` to the spec's
once-control state: `__done = 0` means the initializer has not yet run
(NotStarted), any other value means Done. -/
def onceStateOf (c : pthread_once_t) : OnceState :=
  if c.__done = 0 then .notStarted else .done

/-! ## Read-write lock, modelled from the spec -/

/-- Modelled from the spec: the read-write lock state of §3,
`{reader_count ≥ 0, writer_active, write_waiters}`; the implementation
of `pthread_rwlock_t` operations is not in the repository. -/
structure RwlockModel where
  reader_count : Nat
  writer_active : Bool
  write_waiters : Nat
  deriving DecidableEq, Repr

/-- Events on one read-write lock: a reader is admitted, a writer
starts waiting, a waiting writer is admitted, a reader or the writer
releases. -/
inductive RwEvent
  | rdlockDone (t : Nat)
  | wrlockWait (t : Nat)
  | wrlockDone (t : Nat)
  | rdUnlock (t : Nat)
  | wrUnlock (t : Nat)
  deriving DecidableEq, Repr

/-- Modelled from the spec: one atomic step of the read-write lock
(§4.3, writer-preferring policy).  ReadLock completes only while no
writer is active and no writer is waiting; WriteLock first registers as
a waiter, then completes only when `reader_count = 0` and no writer is
active; Unlock is symmetric per mode. -/
def rwStep (s : RwlockModel) : RwEvent → Option RwlockModel
  | .rdlockDone _ =>
      if s.writer_active = false ∧ s.write_waiters = 0 then
        some { s with reader_count := s.reader_count + 1 }
      else none
  | .wrlockWait _ => some { s with write_waiters := s.write_waiters + 1 }
  | .wrlockDone _ =>
      if s.reader_count = 0 ∧ s.writer_active = false ∧ 1 ≤ s.write_waiters then
        some { s with writer_active := true,
                      write_waiters := s.write_waiters - 1 }
      else none
  | .rdUnlock _ =>
      if 1 ≤ s.reader_count then
        some { s with reader_count := s.reader_count - 1 }
      else none
  | .wrUnlock _ =>
      if s.writer_active = true then
        some { s with writer_active := false }
      else none

/-- Run a sequence of completed read-write-lock events. -/
def rwRun (s : RwlockModel) : List RwEvent → Option RwlockModel
  | [] => some s
  | e :: es =>
      match rwStep s e with
      | some s2 => rwRun s2 es
      | none => none

/-- A freshly initialized read-write lock: no readers, no writer, no
write waiters. -/
def rwlockFresh : RwlockModel :=
  { reader_count := 0, writer_active := false, write_waiters := 0 }

/-! ## Barrier, modelled from the spec -/

/-- Modelled from the spec: the barrier state of §3, `{count: target
party count, arrived, generation}`; the implementation of
`pthread_barrier_t` operations is not in the repository. -/
structure BarrierModel where
  count : Nat
  arrived : Nat
  generation : Nat
  deriving DecidableEq, Repr

/-- Outcome of one `pthread_barrier_wait` arrival: this arrival
completed the cohort and released all waiters (the serial thread), or
this caller joined the waiting cohort and is released later with the
cohort. -/
inductive BarrierOutcome
  | serialRelease
  | waited
  deriving DecidableEq, Repr

/-- Modelled from the spec: one arrival at `pthread_barrier_wait`
(§4.4).  The arrival that brings the arrived tally up to `count`
releases the whole cohort, increments the generation and resets the
tally to 0 for reuse; earlier arrivals wait.  A barrier configured with
fewer than 2 parties releases immediately (no-op release). -/
def pthread_barrier_wait (b : BarrierModel) : BarrierOutcome × BarrierModel :=
  if b.count ≤ b.arrived + 1 then
    (.serialRelease, { b with arrived := 0, generation := b.generation + 1 })
  else
    (.waited, { b with arrived := b.arrived + 1 })

/-- Run `n` successive arrivals at the barrier. -/
def barrierRun (b : BarrierModel) : Nat → BarrierModel
  | 0 => b
  | n + 1 => barrierRun (pthread_barrier_wait b).2 n

/-- Modelled from the spec: `pthread_barrier_init` (pthread.h lines
265-267, spec §7).  The caller-side count argument is a C `int`; a
malformed (negative) count is rejected with `PTHREAD_INVAL` and no
barrier is created; otherwise a fresh barrier with that party count is
produced with `PTHREAD_SUCCESS`. -/
def pthread_barrier_init (count : Int) : Nat × Option BarrierModel :=
  if count < 0 then (PTHREAD_INVAL, none)
  else (PTHREAD_SUCCESS,
    some { count := count.toNat, arrived := 0, generation := 0 })

/-! ## Theorems -/

/-- Claim C9: a mutex whose fields are zero-initialized by
`PTHREAD_MUTEX_INITIALIZER` starts in the unlocked state with a null
owner, has type `PTHREAD_MUTEX_NORMAL` (which equals
`PTHREAD_MUTEX_DEFAULT`), protocol `PTHREAD_PRIO_NONE`, is not robust
(`PTHREAD_MUTEX_STALLED`), and is process-private
(`PTHREAD_PROCESS_PRIVATE`). -/
theorem mutex_initializer_defaults :
    PTHREAD_MUTEX_INITIALIZER.__lock = 0 ∧
    PTHREAD_MUTEX_INITIALIZER.__owner = none ∧
    PTHREAD_MUTEX_INITIALIZER.__type = PTHREAD_MUTEX_NORMAL ∧
    PTHREAD_MUTEX_NORMAL = PTHREAD_MUTEX_DEFAULT ∧
    PTHREAD_MUTEX_INITIALIZER.__protocol = PTHREAD_PRIO_NONE ∧
    PTHREAD_MUTEX_INITIALIZER.__robust = PTHREAD_MUTEX_STALLED ∧
    PTHREAD_MUTEX_INITIALIZER.__pshared = PTHREAD_PROCESS_PRIVATE :=
  ⟨rfl, rfl, rfl, rfl, rfl, rfl, rfl⟩

/-- Claim C10: a once-control initialized with `PTHREAD_ONCE_INIT` has
`__done = 0` and a null `__func`, which is the NotStarted state, so the
first `pthread_once` call on it starts running its init_routine (the
NotStarted→InProgress transition is the one that executes the
initializer body). -/
theorem once_init_not_started (t f : Nat) :
    PTHREAD_ONCE_INIT.__done = 0 ∧
    PTHREAD_ONCE_INIT.__func = none ∧
    onceStateOf PTHREAD_ONCE_INIT = OnceState.notStarted ∧
    onceStep (onceStateOf PTHREAD_ONCE_INIT) (OnceEvent.enter t f) =
      some (OnceState.inProgress t) ∧
    runsInit (OnceEvent.enter t f) = true :=
  ⟨rfl, rfl, rfl, rfl, rfl⟩

/-- Claim C8: `pthread_barrier_init` called with a negative count fails
with `PTHREAD_INVAL` (an error distinct from success) and creates no
usable barrier. -/
theorem barrier_init_negative_invalid (c : Int) (h : c < 0) :
    pthread_barrier_init c = (PTHREAD_INVAL, none) ∧
    PTHREAD_INVAL ≠ PTHREAD_SUCCESS := by
  refine ⟨?_, by decide⟩
  simp [pthread_barrier_init, h]

/-- Witness for `barrier_init_negative_invalid` at count `-1`. -/
theorem barrier_init_negative_invalid_witness :
    pthread_barrier_init (-1) = (PTHREAD_INVAL, none) ∧
    PTHREAD_INVAL ≠ PTHREAD_SUCCESS :=
  barrier_init_negative_invalid (-1) (by decide)

/-- Claim C3: when the absolute deadline has elapsed and the mutex
cannot be acquired (another thread holds it), `pthread_mutex_timedlock`
completes with the ordinary result `timeout`, leaving the mutex
unchanged; likewise `pthread_cond_timedwait` with an elapsed deadline
and no observed signal completes with `timeout` (even when the wait
primitive would wake spuriously); `timeout` is distinct from success,
from the contention result `busy`, and from a spurious wake. -/
theorem timedlock_timedwait_timeout (m : MutexModel) (c : CondModel)
    (t u now deadline gen0 : Nat)
    (hheld : m.owner = some u) (hne : u ≠ t) (hrec : m.recoverable = true)
    (hdl : deadline ≤ now) (hgen : c.generation ≤ gen0) :
    pthread_mutex_timedlock m t now deadline = some (LockResult.timeout, m) ∧
    pthread_cond_timedwait c gen0 now deadline false =
      some (WaitOutcome.timeout, c) ∧
    pthread_cond_timedwait c gen0 now deadline true =
      some (WaitOutcome.timeout, c) ∧
    LockResult.timeout ≠ LockResult.success ∧
    LockResult.timeout ≠ LockResult.busy ∧
    WaitOutcome.timeout ≠ WaitOutcome.signaled ∧
    WaitOutcome.timeout ≠ WaitOutcome.spurious := by
  have hnotlt : ¬ gen0 < c.generation := Nat.not_lt.mpr hgen
  refine ⟨?_, ?_, ?_, by decide, by decide, by decide, by decide⟩
  · simp [pthread_mutex_timedlock, pthread_mutex_lock, hheld, hrec, hne, hdl]
  · simp [pthread_cond_timedwait, hnotlt, hdl]
  · simp [pthread_cond_timedwait, hnotlt, hdl]

/-- Witness for `timedlock_timedwait_timeout`: a mutex held by thread
1, an attempt by thread 2 with deadline 3 at time 5, a condition
variable at generation 0 sampled at 0. -/
theorem timedlock_timedwait_timeout_witness :
    pthread_mutex_timedlock
        ⟨MutexKind.normal, false, some 1, 1, false, false, true⟩ 2 5 3 =
      some (LockResult.timeout,
        ⟨MutexKind.normal, false, some 1, 1, false, false, true⟩) ∧
    pthread_cond_timedwait ⟨0, 0⟩ 0 5 3 false =
      some (WaitOutcome.timeout, ⟨0, 0⟩) ∧
    pthread_cond_timedwait ⟨0, 0⟩ 0 5 3 true =
      some (WaitOutcome.timeout, ⟨0, 0⟩) ∧
    LockResult.timeout ≠ LockResult.success ∧
    LockResult.timeout ≠ LockResult.busy ∧
    WaitOutcome.timeout ≠ WaitOutcome.signaled ∧
    WaitOutcome.timeout ≠ WaitOutcome.spurious :=
  timedlock_timedwait_timeout
    ⟨MutexKind.normal, false, some 1, 1, false, false, true⟩ ⟨0, 0⟩
    2 1 5 3 0 rfl (by decide) rfl (by decide) (by decide)

/-- The reader/writer exclusivity invariant of spec §3. -/
def rwInv (s : RwlockModel) : Prop :=
  s.writer_active = true → s.reader_count = 0

/-- One read-write-lock step preserves the exclusivity invariant. -/
theorem rwStep_inv {s s2 : RwlockModel} (hs : rwInv s) {e : RwEvent}
    (h : rwStep s e = some s2) : rwInv s2 := by
  cases e with
  | rdlockDone t =>
      simp only [rwStep] at h
      split at h
      · rename_i hc
        cases h
        intro hw
        simp_all [rwInv]
      · cases h
  | wrlockWait t =>
      simp only [rwStep] at h
      cases h
      intro hw
      simp_all [rwInv]
  | wrlockDone t =>
      simp only [rwStep] at h
      split at h
      · rename_i hc
        cases h
        intro hw
        simp_all [rwInv]
      · cases h
  | rdUnlock t =>
      simp only [rwStep] at h
      split at h
      · rename_i hc
        cases h
        intro hw
        have := hs hw
        simp_all [rwInv]
      · cases h
  | wrUnlock t =>
      simp only [rwStep] at h
      split at h
      · rename_i hc
        cases h
        intro hw
        simp_all
      · cases h

/-- Any run of read-write-lock events preserves the exclusivity
invariant. -/
theorem rwRun_inv : ∀ (tr : List RwEvent) (s s2 : RwlockModel),
    rwInv s → rwRun s tr = some s2 → rwInv s2 := by
  intro tr
  induction tr with
  | nil =>
      intro s s2 hs h
      simp [rwRun] at h
      exact h ▸ hs
  | cons e es ih =>
      intro s s2 hs h
      unfold rwRun at h
      cases hstep : rwStep s e with
      | none => rw [hstep] at h; cases h
      | some sm =>
          rw [hstep] at h
          exact ih sm s2 (rwStep_inv hs hstep) h

/-- Claim C5: in every state reachable from a freshly initialized
read-write lock, `reader_count > 0` and `writer_active` never hold at
the same instant. -/
theorem rwlock_reader_writer_exclusive (tr : List RwEvent) (s : RwlockModel)
    (h : rwRun rwlockFresh tr = some s) :
    ¬(0 < s.reader_count ∧ s.writer_active = true) := by
  have hinv : rwInv s := by
    refine rwRun_inv tr rwlockFresh s ?_ h
    intro hw
    simp [rwlockFresh] at hw
  rintro ⟨h1, h2⟩
  have h0 := hinv h2
  omega

/-- Witness for `rwlock_reader_writer_exclusive`: one admitted reader
reached from the fresh lock. -/
theorem rwlock_reader_writer_exclusive_witness :
    ¬(0 < (⟨1, false, 0⟩ : RwlockModel).reader_count ∧
      (⟨1, false, 0⟩ : RwlockModel).writer_active = true) :=
  rwlock_reader_writer_exclusive [RwEvent.rdlockDone 0] ⟨1, false, 0⟩
    (by decide)

/-- Claim C1: at most one thread owns a mutex at any time, and while
thread `t1` holds it no other thread can begin a holding interval: a
lock completion by a different thread never acquires (never returns
success or ownerDied) and leaves `t1` the owner, and a trylock by a
different thread reports contention without acquiring — so the holding
intervals of distinct threads never overlap. -/
theorem mutex_mutual_exclusion (m : MutexModel) (t1 t2 : Nat)
    (h1 : heldBy m t1) :
    (heldBy m t2 → t1 = t2) ∧
    (t1 ≠ t2 →
      (∀ r m2, pthread_mutex_lock m t2 = some (r, m2) →
          r ≠ LockResult.success ∧ r ≠ LockResult.ownerDied ∧
          m2.owner = some t1) ∧
      (pthread_mutex_trylock m t2).1 ≠ LockResult.success ∧
      (pthread_mutex_trylock m t2).2.owner = some t1) := by
  unfold heldBy at h1
  constructor
  · intro h2
    unfold heldBy at h2
    rw [h1] at h2
    exact Option.some.inj h2
  · intro hne
    have hlock : ∀ r m2, pthread_mutex_lock m t2 = some (r, m2) →
        r ≠ LockResult.success ∧ r ≠ LockResult.ownerDied ∧
        m2.owner = some t1 := by
      intro r m2 hsome
      unfold pthread_mutex_lock at hsome
      split at hsome
      · cases hsome
        exact ⟨by decide, by decide, h1⟩
      · rw [h1] at hsome
        simp only at hsome
        rw [if_neg (fun hc : t1 = t2 => hne hc)] at hsome
        cases hsome
    refine ⟨hlock, ?_, ?_⟩
    · unfold pthread_mutex_trylock
      cases hl : pthread_mutex_lock m t2 with
      | none => simp [hl]
      | some r =>
          have := hlock r.1 r.2 (by rw [hl])
          simp [hl]
          exact this.1
    · unfold pthread_mutex_trylock
      cases hl : pthread_mutex_lock m t2 with
      | none => simp [hl, h1]
      | some r =>
          have := hlock r.1 r.2 (by rw [hl])
          simp [hl]
          exact this.2.2

/-- Witness for `mutex_mutual_exclusion`: a normal mutex held by
thread 5, challenged by thread 7. -/
theorem mutex_mutual_exclusion_witness :
    (heldBy ⟨MutexKind.normal, false, some 5, 1, false, false, true⟩ 7 →
      (5 : Nat) = 7) ∧
    ((5 : Nat) ≠ 7 →
      (∀ r m2,
          pthread_mutex_lock
            ⟨MutexKind.normal, false, some 5, 1, false, false, true⟩ 7 =
            some (r, m2) →
          r ≠ LockResult.success ∧ r ≠ LockResult.ownerDied ∧
          m2.owner = some 5) ∧
      (pthread_mutex_trylock
          ⟨MutexKind.normal, false, some 5, 1, false, false, true⟩ 7).1 ≠
        LockResult.success ∧
      (pthread_mutex_trylock
          ⟨MutexKind.normal, false, some 5, 1, false, false, true⟩ 7).2.owner =
        some 5) :=
  mutex_mutual_exclusion
    ⟨MutexKind.normal, false, some 5, 1, false, false, true⟩ 5 7 rfl

/-- Claim C2: when the owner of a robust mutex terminates while
holding it, the next lock completion returns `ownerDied` —
distinct from success and from every other defined result — and the
acquirer must call `pthread_mutex_consistent` before the mutex is
usable again: after repair, unlock leaves a normally lockable mutex,
while releasing without repair makes every subsequent lock fail
permanently.  The outcome is reported in the lock's return value, never
silently dropped. -/
theorem robust_owner_died_reported (m : MutexModel) (t u v : Nat)
    (hrob : m.robust = true) (hown : m.owner = some t)
    (hrec : m.recoverable = true) :
    (∃ m2, pthread_mutex_lock (ownerTerminates m t) u =
        some (LockResult.ownerDied, m2) ∧
      m2.owner = some u ∧ m2.needConsistent = true ∧
      (∃ m4, pthread_mutex_consistent m2 u = (LockResult.success, m4) ∧
        m4.needConsistent = false ∧
        (pthread_mutex_unlock m4 u).2.recoverable = true ∧
        (∃ m5, pthread_mutex_lock (pthread_mutex_unlock m4 u).2 v =
            some (LockResult.success, m5) ∧ m5.owner = some v)) ∧
      ((pthread_mutex_unlock m2 u).2.recoverable = false ∧
       ∀ w, pthread_mutex_lock (pthread_mutex_unlock m2 u).2 w =
          some (LockResult.notRecoverable, (pthread_mutex_unlock m2 u).2))) ∧
    (LockResult.ownerDied ≠ LockResult.success ∧
     LockResult.ownerDied ≠ LockResult.busy ∧
     LockResult.ownerDied ≠ LockResult.timeout ∧
     LockResult.ownerDied ≠ LockResult.misuse ∧
     LockResult.ownerDied ≠ LockResult.notRecoverable) := by
  have hterm : ownerTerminates m t =
      { m with owner := none, recursion := 0, ownerDead := true } := by
    unfold ownerTerminates
    rw [if_pos ⟨hown, hrob⟩]
  refine ⟨⟨{ m with owner := some u, recursion := 1, ownerDead := false, needConsistent := true }, ?_, rfl, rfl, ?_, ?_, ?_⟩,
    by decide, by decide, by decide, by decide, by decide⟩
  · rw [hterm]
    simp [pthread_mutex_lock, hrec]
  · refine ⟨{ m with owner := some u, recursion := 1, ownerDead := false, needConsistent := false }, ?_, rfl, ?_, ?_⟩
    · simp [pthread_mutex_consistent]
    · simp [pthread_mutex_unlock, hrec]
    · refine ⟨{ m with owner := some v, recursion := 1, ownerDead := false, needConsistent := false }, ?_, rfl⟩
      simp [pthread_mutex_unlock, pthread_mutex_lock, hrec]
  · simp [pthread_mutex_unlock]
  · intro w
    simp [pthread_mutex_unlock, pthread_mutex_lock]

/-- Witness for `robust_owner_died_reported`: a robust normal mutex
held by thread 1 whose owner dies; thread 2 is the next acquirer,
thread 3 a later one. -/
theorem robust_owner_died_reported_witness :
    (∃ m2, pthread_mutex_lock
        (ownerTerminates
          ⟨MutexKind.normal, true, some 1, 1, false, false, true⟩ 1) 2 =
        some (LockResult.ownerDied, m2) ∧
      m2.owner = some 2 ∧ m2.needConsistent = true ∧
      (∃ m4, pthread_mutex_consistent m2 2 = (LockResult.success, m4) ∧
        m4.needConsistent = false ∧
        (pthread_mutex_unlock m4 2).2.recoverable = true ∧
        (∃ m5, pthread_mutex_lock (pthread_mutex_unlock m4 2).2 3 =
            some (LockResult.success, m5) ∧ m5.owner = some 3)) ∧
      ((pthread_mutex_unlock m2 2).2.recoverable = false ∧
       ∀ w, pthread_mutex_lock (pthread_mutex_unlock m2 2).2 w =
          some (LockResult.notRecoverable, (pthread_mutex_unlock m2 2).2))) ∧
    (LockResult.ownerDied ≠ LockResult.success ∧
     LockResult.ownerDied ≠ LockResult.busy ∧
     LockResult.ownerDied ≠ LockResult.timeout ∧
     LockResult.ownerDied ≠ LockResult.misuse ∧
     LockResult.ownerDied ≠ LockResult.notRecoverable) :=
  robust_owner_died_reported
    ⟨MutexKind.normal, true, some 1, 1, false, false, true⟩ 1 2 3
    rfl rfl rfl

/-- Number of initializer executions already accounted for by a
once-control state: none before the first `enter`, one from
InProgress on. -/
def onceWeight : OnceState → Nat
  | .notStarted => 0
  | .inProgress _ => 1
  | .done => 1

/-- One once-control step adds to the trace exactly the
initializer-execution weight it adds to the state. -/
theorem onceStep_weight {s s2 : OnceState} {e : OnceEvent}
    (h : onceStep s e = some s2) :
    onceWeight s2 = onceWeight s + (if runsInit e then 1 else 0) := by
  cases e with
  | enter t f =>
      cases s with
      | notStarted => cases h; rfl
      | inProgress u => cases h
      | done => cases h
  | complete t =>
      cases s with
      | notStarted => cases h
      | inProgress u =>
          simp only [onceStep] at h
          split at h
          · cases h; rfl
          · cases h
      | done => cases h
  | passDone t =>
      cases s with
      | notStarted => cases h
      | inProgress u => cases h
      | done => cases h; rfl

/-- Over a run of once-control events, the state weight accounts for
every initializer execution in the trace. -/
theorem onceRun_weight : ∀ (tr : List OnceEvent) (s s2 : OnceState),
    onceRun s tr = some s2 →
    onceWeight s + initRunCount tr = onceWeight s2 := by
  intro tr
  induction tr with
  | nil =>
      intro s s2 h
      simp [onceRun] at h
      subst h
      simp [initRunCount]
  | cons e es ih =>
      intro s s2 h
      unfold onceRun at h
      cases hstep : onceStep s e with
      | none => rw [hstep] at h; cases h
      | some sm =>
          rw [hstep] at h
          have h1 := ih sm s2 h
          have h2 := onceStep_weight hstep
          have h3 : initRunCount (e :: es) =
              (if runsInit e then 1 else 0) + initRunCount es := by
            simp [initRunCount, List.filter]
            cases hr : runsInit e
            · simp [hr]
            · simp [hr]
              omega
          omega

/-- Claim C4: in any run of `pthread_once` completions on one control
starting NotStarted, at most one initializer body executes, and once
the control is Done exactly one has executed; a caller that arrives
while the control is InProgress cannot complete (it blocks until
Done), and after Done callers complete without running their
routine. -/
theorem once_exactly_once (tr : List OnceEvent) (s : OnceState)
    (h : onceRun OnceState.notStarted tr = some s) :
    initRunCount tr ≤ 1 ∧
    (s = OnceState.done → initRunCount tr = 1) ∧
    (∀ u t f, onceStep (OnceState.inProgress u) (OnceEvent.enter t f) = none ∧
        onceStep (OnceState.inProgress u) (OnceEvent.passDone t) = none) ∧
    (∀ t f, onceStep OnceState.done (OnceEvent.enter t f) = none ∧
        onceStep OnceState.done (OnceEvent.passDone t) = some OnceState.done ∧
        runsInit (OnceEvent.passDone t) = false) := by
  have hw := onceRun_weight tr OnceState.notStarted s h
  simp [onceWeight] at hw
  refine ⟨?_, ?_, ?_, ?_⟩
  · cases s <;> simp [onceWeight] at hw <;> omega
  · intro hdone
    subst hdone
    simp [onceWeight] at hw
    omega
  · intro u t f
    exact ⟨rfl, rfl⟩
  · intro t f
    exact ⟨rfl, rfl, rfl⟩

/-- Witness for `once_exactly_once`: thread 4 enters with initializer
9 and completes; the control ends Done with exactly one execution. -/
theorem once_exactly_once_witness :
    initRunCount [OnceEvent.enter 4 9, OnceEvent.complete 4] ≤ 1 ∧
    (OnceState.done = OnceState.done →
      initRunCount [OnceEvent.enter 4 9, OnceEvent.complete 4] = 1) ∧
    (∀ u t f, onceStep (OnceState.inProgress u) (OnceEvent.enter t f) = none ∧
        onceStep (OnceState.inProgress u) (OnceEvent.passDone t) = none) ∧
    (∀ t f, onceStep OnceState.done (OnceEvent.enter t f) = none ∧
        onceStep OnceState.done (OnceEvent.passDone t) = some OnceState.done ∧
        runsInit (OnceEvent.passDone t) = false) :=
  once_exactly_once [OnceEvent.enter 4 9, OnceEvent.complete 4]
    OnceState.done (by decide)

/-- A barrier arrival never changes the configured party count. -/
theorem barrierWait_count (b : BarrierModel) :
    (pthread_barrier_wait b).2.count = b.count := by
  unfold pthread_barrier_wait
  split <;> rfl

/-- Any number of arrivals leaves the configured party count
unchanged. -/
theorem barrierRun_count : ∀ (n : Nat) (b : BarrierModel),
    (barrierRun b n).count = b.count := by
  intro n
  induction n with
  | zero => intro b; rfl
  | succ n ih =>
      intro b
      show (barrierRun (pthread_barrier_wait b).2 n).count = b.count
      rw [ih, barrierWait_count]

/-- One arrival keeps the arrived tally strictly below the party count
(for a barrier with at least one party). -/
theorem barrierWait_arrived {b : BarrierModel} (hc : 1 ≤ b.count) :
    (pthread_barrier_wait b).2.arrived < b.count := by
  unfold pthread_barrier_wait
  split
  · simpa using hc
  · rename_i hlt
    simp only
    omega

/-- The arrived tally stays strictly below the party count in every
state reachable by arrivals. -/
theorem barrierRun_arrived : ∀ (n : Nat) (b : BarrierModel), 1 ≤ b.count →
    b.arrived < b.count →
    (barrierRun b n).arrived < (barrierRun b n).count := by
  intro n
  induction n with
  | zero => intro b hc ha; exact ha
  | succ n ih =>
      intro b hc ha
      show (barrierRun (pthread_barrier_wait b).2 n).arrived < _
      refine ih (pthread_barrier_wait b).2 ?_ ?_
      · rw [barrierWait_count]; exact hc
      · rw [barrierWait_count]; exact barrierWait_arrived hc

/-- A cohort completes: starting from tally `a`, exactly `j = N - a`
further arrivals release everyone, increment the generation and reset
the tally. -/
theorem barrier_cohort : ∀ (j : Nat), 1 ≤ j → ∀ (a g N : Nat), a + j = N →
    barrierRun ⟨N, a, g⟩ j = ⟨N, 0, g + 1⟩ := by
  intro j
  induction j with
  | zero => intro h; exact absurd h (by omega)
  | succ j ih =>
      intro hj a g N hsum
      cases Nat.eq_zero_or_pos j with
      | inl hz =>
          subst hz
          show barrierRun (pthread_barrier_wait ⟨N, a, g⟩).2 0 = _
          unfold pthread_barrier_wait
          rw [if_pos (show (⟨N, a, g⟩ : BarrierModel).count ≤
                (⟨N, a, g⟩ : BarrierModel).arrived + 1 by simp; omega)]
          rfl
      | inr hpos =>
          show barrierRun (pthread_barrier_wait ⟨N, a, g⟩).2 j = _
          unfold pthread_barrier_wait
          rw [if_neg (show ¬ (⟨N, a, g⟩ : BarrierModel).count ≤
                (⟨N, a, g⟩ : BarrierModel).arrived + 1 by simp; omega)]
          exact ih hpos (a + 1) g N (by omega)

/-- Claim C7: for a barrier with party count `N ≥ 1`, the arrived
tally satisfies `0 ≤ arrived < count ≤ count` in every reachable state
(so `0 ≤ arrived ≤ count` always holds, `arrived` being a `Nat`); an
arrival that is not the last of its cohort waits, while the `N`th
arrival releases the cohort, increments the generation and resets the
tally to 0; a full cohort of `N` arrivals from the fresh barrier does
exactly that, and the barrier is immediately reusable: a second cohort
of `N` arrivals completes again. -/
theorem barrier_cohort_release (N g n a : Nat) (hN : 1 ≤ N) :
    ((barrierRun ⟨N, 0, g⟩ n).count = N ∧
     (barrierRun ⟨N, 0, g⟩ n).arrived < N) ∧
    (a + 1 = N → pthread_barrier_wait ⟨N, a, g⟩ =
        (BarrierOutcome.serialRelease, ⟨N, 0, g + 1⟩)) ∧
    (a + 1 < N → pthread_barrier_wait ⟨N, a, g⟩ =
        (BarrierOutcome.waited, ⟨N, a + 1, g⟩)) ∧
    barrierRun ⟨N, 0, g⟩ N = ⟨N, 0, g + 1⟩ ∧
    barrierRun ⟨N, 0, g + 1⟩ N = ⟨N, 0, g + 2⟩ := by
  refine ⟨⟨?_, ?_⟩, ?_, ?_, ?_, ?_⟩
  · exact barrierRun_count n ⟨N, 0, g⟩
  · have h := barrierRun_arrived n ⟨N, 0, g⟩ (by simpa using hN)
      (by simpa using hN)
    rw [barrierRun_count] at h
    exact h
  · intro hlast
    unfold pthread_barrier_wait
    rw [if_pos (show (⟨N, a, g⟩ : BarrierModel).count ≤
          (⟨N, a, g⟩ : BarrierModel).arrived + 1 by simp; omega)]
  · intro hmid
    unfold pthread_barrier_wait
    rw [if_neg (show ¬ (⟨N, a, g⟩ : BarrierModel).count ≤
          (⟨N, a, g⟩ : BarrierModel).arrived + 1 by simp; omega)]
  · exact barrier_cohort N hN 0 g N (by omega)
  · exact barrier_cohort N hN 0 (g + 1) N (by omega)

/-- Witness for `barrier_cohort_release`: the spec's concrete scenario
with count 3 — three arrivals release a cohort and the barrier is
reusable for a second round of three. -/
theorem barrier_cohort_release_witness :
    ((barrierRun ⟨3, 0, 0⟩ 5).count = 3 ∧
     (barrierRun ⟨3, 0, 0⟩ 5).arrived < 3) ∧
    (2 + 1 = 3 → pthread_barrier_wait ⟨3, 2, 0⟩ =
        (BarrierOutcome.serialRelease, ⟨3, 0, 0 + 1⟩)) ∧
    (2 + 1 < 3 → pthread_barrier_wait ⟨3, 2, 0⟩ =
        (BarrierOutcome.waited, ⟨3, 2 + 1, 0⟩)) ∧
    barrierRun ⟨3, 0, 0⟩ 3 = ⟨3, 0, 0 + 1⟩ ∧
    barrierRun ⟨3, 0, 0 + 1⟩ 3 = ⟨3, 0, 0 + 2⟩ :=
  barrier_cohort_release 3 0 5 2 (by decide)

/-- Running a concatenation of mutex event lists is running them in
sequence. -/
theorem mutexRun_append : ∀ (xs ys : List MutexEvent) (m : MutexModel),
    mutexRun m (xs ++ ys) =
      (mutexRun m xs).bind (fun m2 => mutexRun m2 ys) := by
  intro xs
  induction xs with
  | nil => intro ys m; rfl
  | cons e es ih =>
      intro ys m
      show mutexRun m (e :: (es ++ ys)) = _
      cases hstep : mutexStep m e with
      | none => simp [mutexRun, hstep]
      | some m2 => simp [mutexRun, hstep, ih]

/-- The first lock of an unlocked, unpoisoned mutex acquires it with
recursion count 1. -/
theorem mutexStep_first_lock (m : MutexModel) (t : Nat)
    (ho : m.owner = none) (hr : m.recoverable = true)
    (hd : m.ownerDead = false) :
    mutexStep m (MutexEvent.lockDone t) =
      some { m with owner := some t, recursion := 1 } := by
  simp [mutexStep, pthread_mutex_lock, hr, ho, hd]

/-- Each of `n` re-entrant locks by the owner of a recursive mutex
increments the recursion count by one. -/
theorem mutexRun_lock_repeat : ∀ (n : Nat) (m : MutexModel) (t : Nat),
    m.kind = MutexKind.recursive → m.owner = some t →
    m.recoverable = true →
    mutexRun m (List.replicate n (MutexEvent.lockDone t)) =
      some { m with recursion := m.recursion + n } := by
  intro n
  induction n with
  | zero => intro m t hk ho hr; simp [mutexRun]
  | succ n ih =>
      intro m t hk ho hr
      have hstep : mutexStep m (MutexEvent.lockDone t) =
          some { m with recursion := m.recursion + 1 } := by
        simp [mutexStep, pthread_mutex_lock, hr, ho, hk]
      rw [List.replicate_succ]
      simp only [mutexRun, hstep]
      rw [ih { m with recursion := m.recursion + 1 } t hk ho hr]
      have harith : m.recursion + 1 + n = m.recursion + (n + 1) := by omega
      simp [harith]

/-- Each of `k` unlocks by the owner, while the recursion count stays
above `k`, decrements the count by one and keeps ownership. -/
theorem mutexRun_unlock_repeat : ∀ (k : Nat) (m : MutexModel) (t : Nat),
    m.owner = some t → k + 1 ≤ m.recursion →
    mutexRun m (List.replicate k (MutexEvent.unlockDone t)) =
      some { m with recursion := m.recursion - k } := by
  intro k
  induction k with
  | zero => intro m t ho hk; simp [mutexRun]
  | succ k ih =>
      intro m t ho hk
      have hnot : ¬ m.recursion ≤ 1 := by omega
      have hstep : mutexStep m (MutexEvent.unlockDone t) =
          some { m with recursion := m.recursion - 1 } := by
        simp [mutexStep, pthread_mutex_unlock, ho, hnot]
      rw [List.replicate_succ]
      simp only [mutexRun, hstep]
      rw [ih { m with recursion := m.recursion - 1 } t ho
        (show k + 1 ≤ m.recursion - 1 by omega)]
      have harith : m.recursion - 1 - k = m.recursion - (k + 1) := by omega
      simp [harith]

/-- Claim C6: on a recursive mutex, `N` nested locks by thread `t`
leave `t` the owner with recursion count `N`; after any `k < N`
unlocks by `t` the mutex is still owned by `t` with count `N - k` and
a trylock by another thread `u` reports `busy`; after exactly `N`
unlocks the mutex is released (owner none, count 0) and `u`'s trylock
succeeds. -/
theorem recursive_mutex_n_unlocks (m : MutexModel) (t u N k : Nat)
    (hkind : m.kind = MutexKind.recursive) (ho : m.owner = none)
    (hr : m.recoverable = true) (hd : m.ownerDead = false)
    (hnc : m.needConsistent = false)
    (hN : 1 ≤ N) (hkN : k < N) (hne : u ≠ t) :
    ∃ mN, mutexRun m (List.replicate N (MutexEvent.lockDone t)) = some mN ∧
      mN.owner = some t ∧ mN.recursion = N ∧
      (∃ mk, mutexRun mN (List.replicate k (MutexEvent.unlockDone t)) =
          some mk ∧
        mk.owner = some t ∧ mk.recursion = N - k ∧
        (pthread_mutex_trylock mk u).1 = LockResult.busy) ∧
      (∃ mz, mutexRun mN (List.replicate N (MutexEvent.unlockDone t)) =
          some mz ∧
        mz.owner = none ∧ mz.recursion = 0 ∧
        (pthread_mutex_trylock mz u).1 = LockResult.success) := by
  obtain ⟨N1, rfl⟩ : ∃ N1, N = N1 + 1 := ⟨N - 1, by omega⟩
  have hbusy : ∀ m2 : MutexModel, m2.owner = some t → m2.recoverable = true →
      (pthread_mutex_trylock m2 u).1 = LockResult.busy := by
    intro m2 ho2 hr2
    have hne2 : ¬ t = u := fun hc => hne hc.symm
    simp [pthread_mutex_trylock, pthread_mutex_lock, ho2, hr2, hne2]
  -- the N = N1 + 1 nested locks
  have hlocks : mutexRun m
      (List.replicate (N1 + 1) (MutexEvent.lockDone t)) =
      some { m with owner := some t, recursion := 1 + N1 } := by
    show mutexRun m (MutexEvent.lockDone t :: _) = _
    unfold mutexRun
    rw [mutexStep_first_lock m t ho hr hd]
    exact mutexRun_lock_repeat N1
      { m with owner := some t, recursion := 1 } t hkind rfl hr
  refine ⟨{ m with owner := some t, recursion := 1 + N1 }, hlocks, rfl,
    (show 1 + N1 = N1 + 1 by omega), ?_, ?_⟩
  · -- k < N unlocks keep ownership
    refine ⟨{ m with owner := some t, recursion := 1 + N1 - k }, ?_, rfl,
      (show 1 + N1 - k = N1 + 1 - k by omega), ?_⟩
    · exact mutexRun_unlock_repeat k
        { m with owner := some t, recursion := 1 + N1 } t rfl
        (show k + 1 ≤ 1 + N1 by omega)
    · exact hbusy _ rfl hr
  · -- the (N1 + 1)th unlock releases
    have hallbutone : mutexRun { m with owner := some t, recursion := 1 + N1 }
        (List.replicate N1 (MutexEvent.unlockDone t)) =
        some { m with owner := some t, recursion := 1 } := by
      rw [mutexRun_unlock_repeat N1
        { m with owner := some t, recursion := 1 + N1 } t rfl
        (show N1 + 1 ≤ 1 + N1 by omega)]
      have harith : 1 + N1 - N1 = 1 := by omega
      simp [harith]
    have hlast : mutexStep { m with owner := some t, recursion := 1 }
        (MutexEvent.unlockDone t) =
        some { m with owner := none, recursion := 0 } := by
      simp [mutexStep, pthread_mutex_unlock, hnc]
    refine ⟨{ m with owner := none, recursion := 0 }, ?_, rfl, rfl, ?_⟩
    · rw [List.replicate_succ']
      rw [mutexRun_append]
      rw [hallbutone]
      show mutexRun { m with owner := some t, recursion := 1 }
        (MutexEvent.unlockDone t :: []) = _
      unfold mutexRun
      rw [hlast]
      rfl
    · simp [pthread_mutex_trylock, pthread_mutex_lock, hr, hd]

/-- Witness for `recursive_mutex_n_unlocks`: a fresh recursive mutex,
3 nested locks by thread 1, 2 of the 3 required unlocks checked, with
thread 2 as the challenger. -/
theorem recursive_mutex_n_unlocks_witness :
    ∃ mN, mutexRun ⟨MutexKind.recursive, false, none, 0, false, false, true⟩
        (List.replicate 3 (MutexEvent.lockDone 1)) = some mN ∧
      mN.owner = some 1 ∧ mN.recursion = 3 ∧
      (∃ mk, mutexRun mN (List.replicate 2 (MutexEvent.unlockDone 1)) =
          some mk ∧
        mk.owner = some 1 ∧ mk.recursion = 3 - 2 ∧
        (pthread_mutex_trylock mk 2).1 = LockResult.busy) ∧
      (∃ mz, mutexRun mN (List.replicate 3 (MutexEvent.unlockDone 1)) =
          some mz ∧
        mz.owner = none ∧ mz.recursion = 0 ∧
        (pthread_mutex_trylock mz 2).1 = LockResult.success) :=
  recursive_mutex_n_unlocks
    ⟨MutexKind.recursive, false, none, 0, false, false, true⟩ 1 2 3 2
    rfl rfl rfl rfl rfl (by decide) (by decide) (by decide)

end MultiOS
